import Mathlib

/-!
Shallow embedding of the az_safe_send ink! contract (src/lib.rs, src/errors.rs).

Accounts (ink! `AccountId`) and balances (the u128 `Balance`) are modelled
as `Nat`; the only overflow-relevant balance operation in the source
(`checked_add` in `create`) is modelled explicitly against `2 ^ 128`.  External calls (PSP22 token transfers
and native transfers) are modelled by oracle parameters giving their outcome;
every attempted asset movement is recorded in a trace, and the source's
`panic!` on a failed native transfer is the `fatal` outcome.
-/

namespace AzSafeSendSpec

/-- Overflow bound of the u128 balance type: `checked_add` returns `None`
exactly when the mathematical sum reaches this value. -/
def U128_MOD : Nat := 2 ^ 128

/-- Saturation bound of the u32 cheque counter (`u32::MAX`). -/
def U32_MAX : Nat := 2 ^ 32 - 1

/-- Error type from src/errors.rs together with the `Unauthorised` variant
used by src/lib.rs.  Payload details of wrapped external errors are kept as
strings, as in the source. -/
inductive AzSafeSendError where
  | ContractCall (msg : String)
  | IncorrectFee
  | InkEnvError (msg : String)
  | NotFound (msg : String)
  | PSP22Error (msg : String)
  | RecordsLimitReached (msg : String)
  | UnprocessableEntity (msg : String)
  | Unauthorised
deriving DecidableEq, Repr

/-- The stored escrow record (struct `Cheque` in src/lib.rs).  The Rust field
`from` is a Lean keyword and is rendered `from_`.  `status` is the source's
`u8` code: 0 = pending collection, 1 = collected, 2 = cancelled. -/
structure Cheque where
  id : Nat
  from_ : Nat
  to_ : Nat
  amount : Nat
  token_address : Option Nat
  status : Nat
  fee : Nat
deriving DecidableEq, Repr

/-- Read-only snapshot returned by `config` (struct `Config` in src/lib.rs). -/
structure Config where
  admin : Nat
  fee : Nat
  cheques_total : Nat
deriving DecidableEq, Repr

/-- Contract storage (struct `AzSafeSend` in src/lib.rs).  The `Mapping` is a
total function to `Option Cheque`. -/
structure AzSafeSend where
  fee : Nat
  admin : Nat
  cheques : Nat → Option Cheque
  cheques_total : Nat

/-- Emitted events (the `Create`, `Cancel`, `Collect`, `UpdateFee` ink!
events of src/lib.rs). -/
inductive Event where
  | Create (id : Nat) (from_ to_ : Nat) (amount : Nat)
      (token_address : Option Nat) (fee : Nat)
  | Cancel (id : Nat)
  | Collect (id : Nat)
  | UpdateFee (fee : Nat)
deriving DecidableEq, Repr

/-- An attempted asset movement through an external collaborator.
`psp22TransferFrom token from_ amount` is the `transfer_from_builder` call of
`acquire_psp22`, whose destination is always the contract's own account;
`psp22Transfer` is the `transfer_builder` call; `nativeTransfer` is
`env().transfer`. -/
inductive Transfer where
  | psp22TransferFrom (token from_ : Nat) (amount : Nat)
  | psp22Transfer (token to_ : Nat) (amount : Nat)
  | nativeTransfer (to_ : Nat) (amount : Nat)
deriving DecidableEq, Repr

/-- Outcome of a message call: a typed `Result` (`ok`/`err`) or the `fatal`
halt produced by the source's `panic!` on a failed native payout. -/
inductive ExecResult (α : Type) where
  | ok (a : α)
  | err (e : AzSafeSendError)
  | fatal
deriving DecidableEq, Repr

/-- Full effect of one message call: outcome, post-call storage, emitted
events and attempted transfers, in order.  On `err` and `fatal` outcomes the
storage is the unchanged pre-call storage (the source mutates storage only
after all transfers succeed; a panic reverts). -/
structure Exec (α : Type) where
  result : ExecResult α
  state : AzSafeSend
  events : List Event
  transfers : List Transfer

/-- Constructor `new(fee)`: deployer becomes admin, empty mapping, counter 0. -/
def AzSafeSend.new (fee : Nat) (caller : Nat) : AzSafeSend :=
  { fee := fee, admin := caller, cheques := fun _ => none, cheques_total := 0 }

/-- Query `config`. -/
def AzSafeSend.config (s : AzSafeSend) : Config :=
  { admin := s.admin, fee := s.fee, cheques_total := s.cheques_total }

/-- Query `show`: lookup or `NotFound("Cheque")`.  (`show` is a Lean keyword,
hence the trailing underscore.) -/
def AzSafeSend.show_ (s : AzSafeSend) (id : Nat) : Except AzSafeSendError Cheque :=
  match s.cheques id with
  | some cheque => .ok cheque
  | none => .error (.NotFound "Cheque")

/-- Storage update `self.cheques.insert(k, &c)`. -/
def insertCheque (s : AzSafeSend) (k : Nat) (c : Cheque) : AzSafeSend :=
  { s with cheques := fun j => if j = k then some c else s.cheques j }

/-- Tail of `cancel`: set status to 2, persist at the cheque's own id, emit
the `Cancel` event. -/
def finishCancel (s : AzSafeSend) (cheque : Cheque) (ts : List Transfer) : Exec Cheque :=
  let cheque' := { cheque with status := 2 }
  ⟨.ok cheque', insertCheque s cheque.id cheque', [.Cancel cheque.id], ts⟩

/-- Payout tail of `cancel`: `azero_to_return_to_user = base + fee` where
`base` is the cheque amount for a native cheque and 0 for a token cheque; if
positive it is transferred natively to the caller, and a failure of that
transfer panics. -/
def cancelPayout (s : AzSafeSend) (cheque : Cheque) (caller : Nat)
    (ts : List Transfer) (base : Nat) (nativeOk : Bool) : Exec Cheque :=
  let azero_to_return_to_user : Nat := base + cheque.fee
  if azero_to_return_to_user > 0 then
    if nativeOk then
      finishCancel s cheque (ts ++ [.nativeTransfer caller azero_to_return_to_user])
    else ⟨.fatal, s, [], ts ++ [.nativeTransfer caller azero_to_return_to_user]⟩
  else finishCancel s cheque ts

/-- Message `cancel(id)`.  `tokenResult` is the outcome of the PSP22
`transfer` call when one is made (`none` = success, `some e` = the wrapped
failure); `nativeOk` is whether the native refund transfer succeeds. -/
def AzSafeSend.cancel (s : AzSafeSend) (caller : Nat) (id : Nat)
    (tokenResult : Option AzSafeSendError) (nativeOk : Bool) : Exec Cheque :=
  match s.cheques id with
  | none => ⟨.err (.NotFound "Cheque"), s, [], []⟩
  | some cheque =>
    if caller ≠ cheque.from_ then ⟨.err .Unauthorised, s, [], []⟩
    else if cheque.status ≠ 0 then
      ⟨.err (.UnprocessableEntity "Status must be pending collection."), s, [], []⟩
    else
      match cheque.token_address with
      | some token_address_unwrapped =>
        match tokenResult with
        | some e => ⟨.err e, s, [], [.psp22Transfer token_address_unwrapped caller cheque.amount]⟩
        | none =>
          cancelPayout s cheque caller
            [.psp22Transfer token_address_unwrapped caller cheque.amount] 0 nativeOk
      | none => cancelPayout s cheque caller [] cheque.amount nativeOk

/-- Tail of `collect`: set status to 1, persist at the cheque's own id, emit
the `Collect` event. -/
def finishCollect (s : AzSafeSend) (cheque : Cheque) (ts : List Transfer) : Exec Cheque :=
  let cheque' := { cheque with status := 1 }
  ⟨.ok cheque', insertCheque s cheque.id cheque', [.Collect cheque.id], ts⟩

/-- Fee step of `collect`: if `fee > 0`, transfer it natively to the admin;
a failure of that transfer panics. -/
def collectFee (s : AzSafeSend) (cheque : Cheque) (ts : List Transfer)
    (nativeFeeOk : Bool) : Exec Cheque :=
  if cheque.fee > 0 then
    if nativeFeeOk then finishCollect s cheque (ts ++ [.nativeTransfer s.admin cheque.fee])
    else ⟨.fatal, s, [], ts ++ [.nativeTransfer s.admin cheque.fee]⟩
  else finishCollect s cheque ts

/-- Message `collect(id)`.  `tokenResult` is the outcome of the PSP22
`transfer` call when one is made; `nativeAmountOk` is whether the native
amount transfer to the caller succeeds, `nativeFeeOk` whether the native fee
transfer to the admin succeeds. -/
def AzSafeSend.collect (s : AzSafeSend) (caller : Nat) (id : Nat)
    (tokenResult : Option AzSafeSendError) (nativeAmountOk nativeFeeOk : Bool) : Exec Cheque :=
  match s.cheques id with
  | none => ⟨.err (.NotFound "Cheque"), s, [], []⟩
  | some cheque =>
    if caller ≠ cheque.to_ then ⟨.err .Unauthorised, s, [], []⟩
    else if cheque.status ≠ 0 then
      ⟨.err (.UnprocessableEntity "Status must be pending collection."), s, [], []⟩
    else
      match cheque.token_address with
      | some token_address_unwrapped =>
        match tokenResult with
        | some e => ⟨.err e, s, [], [.psp22Transfer token_address_unwrapped caller cheque.amount]⟩
        | none =>
          collectFee s cheque
            [.psp22Transfer token_address_unwrapped caller cheque.amount] nativeFeeOk
      | none =>
        if nativeAmountOk then
          collectFee s cheque [.nativeTransfer caller cheque.amount] nativeFeeOk
        else ⟨.fatal, s, [], [.nativeTransfer caller cheque.amount]⟩

/-- Tail of `create`: build the cheque with the next id, pending status and
the snapshotted fee, store it, bump the counter, emit the `Create` event. -/
def finishCreate (s : AzSafeSend) (caller to_ : Nat) (amount : Nat)
    (token_address : Option Nat) (ts : List Transfer) : Exec Cheque :=
  let cheque : Cheque :=
    { id := s.cheques_total, from_ := caller, to_ := to_, amount := amount,
      token_address := token_address, status := 0, fee := s.fee }
  ⟨.ok cheque,
   { insertCheque s s.cheques_total cheque with cheques_total := s.cheques_total + 1 },
   [.Create cheque.id cheque.from_ cheque.to_ cheque.amount cheque.token_address cheque.fee],
   ts⟩

/-- Message `create(to, amount, token_address)` with attached value
`transferred_value`.  `pullResult` is the outcome of the PSP22
`transfer_from` call of `acquire_psp22` when one is made (`none` = success).
The native branch's `self.fee.checked_add(amount).is_none()` is
`s.fee + amount ≥ U128_MOD`. -/
def AzSafeSend.create (s : AzSafeSend) (caller to_ : Nat) (amount : Nat)
    (token_address : Option Nat) (transferred_value : Nat)
    (pullResult : Option AzSafeSendError) : Exec Cheque :=
  if caller = to_ then
    ⟨.err (.UnprocessableEntity "Sender and receiver must be different."), s, [], []⟩
  else if amount = 0 then
    ⟨.err (.UnprocessableEntity "Amount must be greater than zero."), s, [], []⟩
  else if s.cheques_total = U32_MAX then ⟨.err (.RecordsLimitReached "Cheque"), s, [], []⟩
  else
    match token_address with
    | some token =>
      if transferred_value ≠ s.fee then ⟨.err .IncorrectFee, s, [], []⟩
      else
        match pullResult with
        | some e => ⟨.err e, s, [], [.psp22TransferFrom token caller amount]⟩
        | none => finishCreate s caller to_ amount token_address [.psp22TransferFrom token caller amount]
    | none =>
      if s.fee + amount ≥ U128_MOD ∨ transferred_value ≠ s.fee + amount then
        ⟨.err .IncorrectFee, s, [], []⟩
      else finishCreate s caller to_ amount none []

/-- Message `update_fee(fee)`: admin only; replaces the stored fee and emits
the `UpdateFee` event. -/
def AzSafeSend.update_fee (s : AzSafeSend) (caller : Nat) (fee : Nat) : Exec Unit :=
  if caller ≠ s.admin then ⟨.err .Unauthorised, s, [], []⟩
  else ⟨.ok (), { s with fee := fee }, [.UpdateFee fee], []⟩

/-- One message invocation together with its environment oracle values. -/
inductive Label where
  | createL (caller to_ : Nat) (amount : Nat) (token_address : Option Nat)
      (transferred_value : Nat) (pullResult : Option AzSafeSendError)
  | cancelL (caller : Nat) (id : Nat) (tokenResult : Option AzSafeSendError)
      (nativeOk : Bool)
  | collectL (caller : Nat) (id : Nat) (tokenResult : Option AzSafeSendError)
      (nativeAmountOk nativeFeeOk : Bool)
  | updateFeeL (caller : Nat) (fee : Nat)

/-- Storage after executing one labelled invocation (on `err` and `fatal`
this is the unchanged input storage). -/
def stepState (s : AzSafeSend) : Label → AzSafeSend
  | .createL c t a ta tv pr => (s.create c t a ta tv pr).state
  | .cancelL c id tr no => (s.cancel c id tr no).state
  | .collectL c id tr na nf => (s.collect c id tr na nf).state
  | .updateFeeL c f => (s.update_fee c f).state

/-- States reachable from some freshly constructed contract by any sequence
of invocations. -/
inductive Reachable : AzSafeSend → Prop where
  | init (fee : Nat) (caller : Nat) : Reachable (AzSafeSend.new fee caller)
  | step {s : AzSafeSend} (l : Label) : Reachable s → Reachable (stepState s l)

/-- Structural storage invariants that hold in every reachable state: each
stored cheque's `id` field equals its key, and the mapping's domain is
exactly the ids below the counter. -/
def GoodState (s : AzSafeSend) : Prop :=
  (∀ id c, s.cheques id = some c → c.id = id) ∧
  (∀ id, (s.cheques id).isSome ↔ id < s.cheques_total)

theorem cancelPayout_state_cases (s : AzSafeSend) (cheque : Cheque) (caller : Nat)
    (ts : List Transfer) (base : Nat) (no : Bool) :
    (cancelPayout s cheque caller ts base no).state = s ∨
    (cancelPayout s cheque caller ts base no).state =
      insertCheque s cheque.id { cheque with status := 2 } := by
  unfold cancelPayout finishCancel
  by_cases h1 : 0 < base + cheque.fee <;> cases no <;> simp [h1]

theorem collectFee_state_cases (s : AzSafeSend) (cheque : Cheque)
    (ts : List Transfer) (nf : Bool) :
    (collectFee s cheque ts nf).state = s ∨
    (collectFee s cheque ts nf).state =
      insertCheque s cheque.id { cheque with status := 1 } := by
  unfold collectFee finishCollect
  by_cases h1 : 0 < cheque.fee <;> cases nf <;> simp [h1]

theorem cancel_state_cases (s : AzSafeSend) (caller : Nat) (id : Nat)
    (tr : Option AzSafeSendError) (no : Bool) :
    (s.cancel caller id tr no).state = s ∨
    ∃ c, s.cheques id = some c ∧ caller = c.from_ ∧ c.status = 0 ∧
      (s.cancel caller id tr no).state = insertCheque s c.id { c with status := 2 } := by
  unfold AzSafeSend.cancel
  split
  · exact Or.inl rfl
  · rename_i c hc
    split
    · exact Or.inl rfl
    · split
      · exact Or.inl rfl
      · rename_i hne hst
        have hclr : caller = c.from_ := not_not.mp hne
        have hst0 : c.status = 0 := not_ne_iff.mp hst
        split
        · rename_i t ht
          split
          · exact Or.inl rfl
          · rcases cancelPayout_state_cases s c caller
                [.psp22Transfer t caller c.amount] 0 no with h | h
            · exact Or.inl h
            · exact Or.inr ⟨c, hc, hclr, hst0, h⟩
        · rcases cancelPayout_state_cases s c caller [] c.amount no with h | h
          · exact Or.inl h
          · exact Or.inr ⟨c, hc, hclr, hst0, h⟩

theorem collect_state_cases (s : AzSafeSend) (caller : Nat) (id : Nat)
    (tr : Option AzSafeSendError) (na nf : Bool) :
    (s.collect caller id tr na nf).state = s ∨
    ∃ c, s.cheques id = some c ∧ caller = c.to_ ∧ c.status = 0 ∧
      (s.collect caller id tr na nf).state = insertCheque s c.id { c with status := 1 } := by
  unfold AzSafeSend.collect
  split
  · exact Or.inl rfl
  · rename_i c hc
    split
    · exact Or.inl rfl
    · split
      · exact Or.inl rfl
      · rename_i hne hst
        have hclr : caller = c.to_ := not_not.mp hne
        have hst0 : c.status = 0 := not_ne_iff.mp hst
        split
        · rename_i t ht
          split
          · exact Or.inl rfl
          · rcases collectFee_state_cases s c [.psp22Transfer t caller c.amount] nf with h | h
            · exact Or.inl h
            · exact Or.inr ⟨c, hc, hclr, hst0, h⟩
        · split
          · rcases collectFee_state_cases s c [.nativeTransfer caller c.amount] nf with h | h
            · exact Or.inl h
            · exact Or.inr ⟨c, hc, hclr, hst0, h⟩
          · exact Or.inl rfl

theorem create_state_cases (s : AzSafeSend) (caller to_ : Nat) (amount : Nat)
    (ta : Option Nat) (tv : Nat) (pr : Option AzSafeSendError) :
    (s.create caller to_ amount ta tv pr).state = s ∨
    ∃ c : Cheque, c.id = s.cheques_total ∧
      (s.create caller to_ amount ta tv pr).state =
        { insertCheque s s.cheques_total c with cheques_total := s.cheques_total + 1 } := by
  unfold AzSafeSend.create finishCreate
  split
  · exact Or.inl rfl
  · split
    · exact Or.inl rfl
    · split
      · exact Or.inl rfl
      · split
        · split
          · exact Or.inl rfl
          · split
            · exact Or.inl rfl
            · exact Or.inr ⟨_, rfl, rfl⟩
        · split
          · exact Or.inl rfl
          · exact Or.inr ⟨_, rfl, rfl⟩

theorem update_fee_state_cases (s : AzSafeSend) (caller : Nat) (f : Nat) :
    (s.update_fee caller f).state = s ∨ (s.update_fee caller f).state = { s with fee := f } := by
  unfold AzSafeSend.update_fee
  split
  · exact Or.inl rfl
  · exact Or.inr rfl

theorem GoodState.insert_existing {s : AzSafeSend} (hs : GoodState s) {k : Nat} {c c' : Cheque}
    (hk : s.cheques k = some c) (hid : c'.id = c.id) :
    GoodState (insertCheque s c.id c') := by
  obtain ⟨hids, hdom⟩ := hs
  have hck : c.id = k := hids k c hk
  subst hck
  constructor
  · intro j d hj
    by_cases hjk : j = c.id
    · subst hjk
      simp only [insertCheque, if_pos rfl] at hj
      cases hj
      exact hid
    · simp only [insertCheque, if_neg hjk] at hj
      exact hids j d hj
  · intro j
    by_cases hjk : j = c.id
    · subst hjk
      simpa [insertCheque] using (hdom c.id).mp (by simp [hk])
    · simp only [insertCheque, if_neg hjk]
      exact hdom j

theorem GoodState.create_insert {s : AzSafeSend} (hs : GoodState s) {c : Cheque}
    (hid : c.id = s.cheques_total) :
    GoodState { insertCheque s s.cheques_total c with cheques_total := s.cheques_total + 1 } := by
  obtain ⟨hids, hdom⟩ := hs
  constructor
  · intro j d hj
    by_cases hjk : j = s.cheques_total
    · subst hjk
      simp only [insertCheque, if_pos rfl] at hj
      cases hj
      exact hid
    · simp only [insertCheque, if_neg hjk] at hj
      exact hids j d hj
  · intro j
    by_cases hjk : j = s.cheques_total
    · subst hjk
      simp [insertCheque]
    · simp only [insertCheque, if_neg hjk]
      rw [hdom j]
      omega

/-- Every reachable state satisfies the structural storage invariants. -/
theorem reachable_good {s : AzSafeSend} (hs : Reachable s) : GoodState s := by
  induction hs with
  | init fee caller =>
    constructor
    · intro id c h
      simp [AzSafeSend.new] at h
    · intro id
      simp [AzSafeSend.new]
  | step l _ ih =>
    rename_i s' _
    cases l with
    | createL c t a ta tv pr =>
      rcases create_state_cases s' c t a ta tv pr with h | ⟨ch, hid, h⟩ <;>
        simp only [stepState, h]
      · exact ih
      · exact ih.create_insert hid
    | cancelL c id tr no =>
      rcases cancel_state_cases s' c id tr no with h | ⟨ch, hget, -, -, h⟩ <;>
        simp only [stepState, h]
      · exact ih
      · exact ih.insert_existing hget rfl
    | collectL c id tr na nf =>
      rcases collect_state_cases s' c id tr na nf with h | ⟨ch, hget, -, -, h⟩ <;>
        simp only [stepState, h]
      · exact ih
      · exact ih.insert_existing hget rfl
    | updateFeeL c f =>
      rcases update_fee_state_cases s' c f with h | h <;> simp only [stepState, h]
      · exact ih
      · exact ⟨ih.1, ih.2⟩

theorem cancel_pending {s : AzSafeSend} {id : Nat} {c : Cheque} {caller : Nat}
    (hc : s.cheques id = some c) (hst : c.status = 0) (hcaller : caller = c.from_)
    (tr : Option AzSafeSendError) (no : Bool) :
    s.cancel caller id tr no =
      match c.token_address with
      | some t =>
        match tr with
        | some e => ⟨.err e, s, [], [.psp22Transfer t caller c.amount]⟩
        | none => cancelPayout s c caller [.psp22Transfer t caller c.amount] 0 no
      | none => cancelPayout s c caller [] c.amount no := by
  simp only [AzSafeSend.cancel, hc]
  rw [if_neg (by simp [hcaller]), if_neg (by simp [hst])]

theorem collect_pending {s : AzSafeSend} {id : Nat} {c : Cheque} {caller : Nat}
    (hc : s.cheques id = some c) (hst : c.status = 0) (hcaller : caller = c.to_)
    (tr : Option AzSafeSendError) (na nf : Bool) :
    s.collect caller id tr na nf =
      match c.token_address with
      | some t =>
        match tr with
        | some e => ⟨.err e, s, [], [.psp22Transfer t caller c.amount]⟩
        | none => collectFee s c [.psp22Transfer t caller c.amount] nf
      | none =>
        if na then collectFee s c [.nativeTransfer caller c.amount] nf
        else ⟨.fatal, s, [], [.nativeTransfer caller c.amount]⟩ := by
  simp only [AzSafeSend.collect, hc]
  rw [if_neg (by simp [hcaller]), if_neg (by simp [hst])]

theorem cancel_ok_inv {s : AzSafeSend} {caller : Nat} {id : Nat}
    {tr : Option AzSafeSendError} {no : Bool} {c' : Cheque}
    (h : (s.cancel caller id tr no).result = .ok c') :
    ∃ c, s.cheques id = some c ∧ caller = c.from_ ∧ c.status = 0 := by
  unfold AzSafeSend.cancel at h
  split at h
  · simp at h
  · rename_i c hc
    split at h
    · simp at h
    · split at h
      · simp at h
      · rename_i hne hst
        exact ⟨c, hc, not_not.mp hne, not_ne_iff.mp hst⟩

theorem collect_ok_inv {s : AzSafeSend} {caller : Nat} {id : Nat}
    {tr : Option AzSafeSendError} {na nf : Bool} {c' : Cheque}
    (h : (s.collect caller id tr na nf).result = .ok c') :
    ∃ c, s.cheques id = some c ∧ caller = c.to_ ∧ c.status = 0 := by
  unfold AzSafeSend.collect at h
  split at h
  · simp at h
  · rename_i c hc
    split at h
    · simp at h
    · split at h
      · simp at h
      · rename_i hne hst
        exact ⟨c, hc, not_not.mp hne, not_ne_iff.mp hst⟩

theorem cancelPayout_ok {s : AzSafeSend} {c : Cheque} {caller : Nat}
    {ts : List Transfer} {base : Nat} {no : Bool} {c' : Cheque}
    (h : (cancelPayout s c caller ts base no).result = .ok c') :
    cancelPayout s c caller ts base no =
      finishCancel s c
        (ts ++ if 0 < base + c.fee then [.nativeTransfer caller (base + c.fee)] else []) := by
  unfold cancelPayout at h ⊢
  by_cases hb : 0 < base + c.fee
  · rw [if_pos hb] at h ⊢
    rw [if_pos hb]
    cases no with
    | false => simp at h
    | true => rfl
  · rw [if_neg hb] at h ⊢
    rw [if_neg hb, List.append_nil]

theorem collectFee_ok {s : AzSafeSend} {c : Cheque} {ts : List Transfer} {nf : Bool} {c' : Cheque}
    (h : (collectFee s c ts nf).result = .ok c') :
    collectFee s c ts nf =
      finishCollect s c
        (ts ++ if 0 < c.fee then [.nativeTransfer s.admin c.fee] else []) := by
  unfold collectFee at h ⊢
  by_cases hb : 0 < c.fee
  · rw [if_pos hb] at h ⊢
    rw [if_pos hb]
    cases nf with
    | false => simp at h
    | true => rfl
  · rw [if_neg hb] at h ⊢
    rw [if_neg hb, List.append_nil]

/-- Full shape of a successful `cancel`. -/
theorem cancel_ok_shape {s : AzSafeSend} {caller : Nat} {id : Nat}
    {tr : Option AzSafeSendError} {no : Bool} {c' : Cheque}
    (h : (s.cancel caller id tr no).result = .ok c') :
    ∃ c, s.cheques id = some c ∧ caller = c.from_ ∧ c.status = 0 ∧
      s.cancel caller id tr no =
        finishCancel s c
          ((match c.token_address with
            | some t => [.psp22Transfer t caller c.amount]
            | none => []) ++
           (if 0 < (match c.token_address with | some _ => 0 | none => c.amount) + c.fee then
              [.nativeTransfer caller
                ((match c.token_address with | some _ => 0 | none => c.amount) + c.fee)]
            else [])) := by
  obtain ⟨c, hc, hcaller, hst⟩ := cancel_ok_inv h
  refine ⟨c, hc, hcaller, hst, ?_⟩
  rw [cancel_pending hc hst hcaller tr no] at h ⊢
  cases hta : c.token_address with
  | some t =>
    simp only [hta] at h ⊢
    cases tr with
    | some e => simp at h
    | none => exact cancelPayout_ok h
  | none =>
    simp only [hta] at h ⊢
    exact cancelPayout_ok h

/-- Full shape of a successful `collect`. -/
theorem collect_ok_shape {s : AzSafeSend} {caller : Nat} {id : Nat}
    {tr : Option AzSafeSendError} {na nf : Bool} {c' : Cheque}
    (h : (s.collect caller id tr na nf).result = .ok c') :
    ∃ c, s.cheques id = some c ∧ caller = c.to_ ∧ c.status = 0 ∧
      s.collect caller id tr na nf =
        finishCollect s c
          ((match c.token_address with
            | some t => [.psp22Transfer t caller c.amount]
            | none => [.nativeTransfer caller c.amount]) ++
           (if 0 < c.fee then [.nativeTransfer s.admin c.fee] else [])) := by
  obtain ⟨c, hc, hcaller, hst⟩ := collect_ok_inv h
  refine ⟨c, hc, hcaller, hst, ?_⟩
  rw [collect_pending hc hst hcaller tr na nf] at h ⊢
  cases hta : c.token_address with
  | some t =>
    simp only [hta] at h ⊢
    cases tr with
    | some e => simp at h
    | none => exact collectFee_ok h
  | none =>
    simp only [hta] at h ⊢
    cases na with
    | false => simp at h
    | true =>
      rw [if_pos rfl] at h ⊢
      exact collectFee_ok h

/-- Full shape of a successful `create`. -/
theorem create_ok_shape {s : AzSafeSend} {caller to_ : Nat} {amount : Nat}
    {ta : Option Nat} {tv : Nat} {pr : Option AzSafeSendError} {c' : Cheque}
    (h : (s.create caller to_ amount ta tv pr).result = .ok c') :
    c' = { id := s.cheques_total, from_ := caller, to_ := to_, amount := amount,
           token_address := ta, status := 0, fee := s.fee } ∧
    (s.create caller to_ amount ta tv pr).state =
      { insertCheque s s.cheques_total c' with cheques_total := s.cheques_total + 1 } ∧
    (s.create caller to_ amount ta tv pr).events =
      [.Create s.cheques_total caller to_ amount ta s.fee] := by
  revert h
  unfold AzSafeSend.create finishCreate
  split
  · intro h; simp at h
  · split
    · intro h; simp at h
    · split
      · intro h; simp at h
      · split
        · split
          · intro h; simp at h
          · split
            · intro h; simp at h
            · intro h
              simp only [ExecResult.ok.injEq] at h
              subst h
              exact ⟨rfl, rfl, rfl⟩
        · split
          · intro h; simp at h
          · intro h
            simp only [ExecResult.ok.injEq] at h
            subst h
            exact ⟨rfl, rfl, rfl⟩

theorem cancelPayout_fatal {s : AzSafeSend} {c : Cheque} {caller : Nat}
    {ts : List Transfer} {base : Nat} {no : Bool} :
    (cancelPayout s c caller ts base no).result = .fatal ↔ (no = false ∧ 0 < base + c.fee) := by
  unfold cancelPayout finishCancel
  cases no <;> by_cases hb : 0 < base + c.fee <;> simp [hb]

theorem collectFee_fatal {s : AzSafeSend} {c : Cheque} {ts : List Transfer} {nf : Bool} :
    (collectFee s c ts nf).result = .fatal ↔ (0 < c.fee ∧ nf = false) := by
  unfold collectFee finishCollect
  cases nf <;> by_cases hb : 0 < c.fee <;> simp [hb]

/-- `cancel` halts fatally exactly when a positive native refund is due and
the native transfer fails. -/
theorem cancel_fatal_iff (s : AzSafeSend) (caller : Nat) (id : Nat)
    (tr : Option AzSafeSendError) (no : Bool) :
    (s.cancel caller id tr no).result = .fatal ↔
      ∃ c, s.cheques id = some c ∧ caller = c.from_ ∧ c.status = 0 ∧ no = false ∧
        ((∃ t, c.token_address = some t ∧ tr = none ∧ 0 < c.fee) ∨
         (c.token_address = none ∧ 0 < c.amount + c.fee)) := by
  unfold AzSafeSend.cancel
  split
  · rename_i hnone
    simp [hnone]
  · rename_i c hc
    split
    · rename_i hne
      simp [hc, hne]
    · split
      · rename_i hne hst
        simp [hc, hst]
      · rename_i hne hst
        have hcaller : caller = c.from_ := not_not.mp hne
        have hst0 : c.status = 0 := not_ne_iff.mp hst
        split
        · rename_i t ht
          split
          · rename_i e he
            constructor
            · intro h; exact absurd h (by simp)
            · rintro ⟨c2, hc2, -, -, -, hrest⟩
              rw [hc] at hc2
              injection hc2 with hcc
              subst hcc
              rcases hrest with ⟨t2, -, htr, -⟩ | ⟨ht2, -⟩
              · exact Option.noConfusion htr
              · rw [ht] at ht2; exact Option.noConfusion ht2
          · rw [cancelPayout_fatal]
            constructor
            · rintro ⟨hno, hb⟩
              exact ⟨c, hc, hcaller, hst0, hno, Or.inl ⟨t, ht, rfl, by omega⟩⟩
            · rintro ⟨c2, hc2, -, -, hno, hrest⟩
              rw [hc] at hc2
              injection hc2 with hcc
              subst hcc
              refine ⟨hno, ?_⟩
              rcases hrest with ⟨t2, -, -, hfee⟩ | ⟨ht2, -⟩
              · omega
              · rw [ht] at ht2; exact Option.noConfusion ht2
        · rename_i ht
          rw [cancelPayout_fatal]
          constructor
          · rintro ⟨hno, hb⟩
            exact ⟨c, hc, hcaller, hst0, hno, Or.inr ⟨ht, hb⟩⟩
          · rintro ⟨c2, hc2, -, -, hno, hrest⟩
            rw [hc] at hc2
            injection hc2 with hcc
            subst hcc
            refine ⟨hno, ?_⟩
            rcases hrest with ⟨t2, ht2, -, -⟩ | ⟨-, hb⟩
            · rw [ht] at ht2; exact Option.noConfusion ht2
            · exact hb

/-- `collect` halts fatally exactly when a native payout (the amount to the
collector, or a positive fee to the admin) fails. -/
theorem collect_fatal_iff (s : AzSafeSend) (caller : Nat) (id : Nat)
    (tr : Option AzSafeSendError) (na nf : Bool) :
    (s.collect caller id tr na nf).result = .fatal ↔
      ∃ c, s.cheques id = some c ∧ caller = c.to_ ∧ c.status = 0 ∧
        ((c.token_address = none ∧ na = false) ∨
         (((∃ t, c.token_address = some t ∧ tr = none) ∨ (c.token_address = none ∧ na = true)) ∧
          0 < c.fee ∧ nf = false)) := by
  unfold AzSafeSend.collect
  split
  · rename_i hnone
    simp [hnone]
  · rename_i c hc
    split
    · rename_i hne
      simp [hc, hne]
    · split
      · rename_i hne hst
        simp [hc, hst]
      · rename_i hne hst
        have hcaller : caller = c.to_ := not_not.mp hne
        have hst0 : c.status = 0 := not_ne_iff.mp hst
        split
        · rename_i t ht
          split
          · rename_i e he
            constructor
            · intro h; exact absurd h (by simp)
            · rintro ⟨c2, hc2, -, -, hrest⟩
              rw [hc] at hc2
              injection hc2 with hcc
              subst hcc
              rcases hrest with ⟨ht2, -⟩ | ⟨⟨t2, -, htr⟩ | ⟨ht2, -⟩, -, -⟩
              · rw [ht] at ht2; exact Option.noConfusion ht2
              · exact Option.noConfusion htr
              · rw [ht] at ht2; exact Option.noConfusion ht2
          · rw [collectFee_fatal]
            constructor
            · rintro ⟨hfee, hnf⟩
              exact ⟨c, hc, hcaller, hst0, Or.inr ⟨Or.inl ⟨t, ht, rfl⟩, hfee, hnf⟩⟩
            · rintro ⟨c2, hc2, -, -, hrest⟩
              rw [hc] at hc2
              injection hc2 with hcc
              subst hcc
              rcases hrest with ⟨ht2, -⟩ | ⟨-, hfee, hnf⟩
              · rw [ht] at ht2; exact Option.noConfusion ht2
              · exact ⟨hfee, hnf⟩
        · rename_i ht
          cases na with
          | true =>
            rw [if_pos rfl, collectFee_fatal]
            constructor
            · rintro ⟨hfee, hnf⟩
              exact ⟨c, hc, hcaller, hst0, Or.inr ⟨Or.inr ⟨ht, rfl⟩, hfee, hnf⟩⟩
            · rintro ⟨c2, hc2, -, -, hrest⟩
              rw [hc] at hc2
              injection hc2 with hcc
              subst hcc
              rcases hrest with ⟨-, hna⟩ | ⟨-, hfee, hnf⟩
              · cases hna
              · exact ⟨hfee, hnf⟩
          | false =>
            rw [if_neg (by simp)]
            constructor
            · intro _
              exact ⟨c, hc, hcaller, hst0, Or.inl ⟨ht, rfl⟩⟩
            · intro _
              rfl

theorem create_not_fatal (s : AzSafeSend) (caller to_ : Nat) (amount : Nat)
    (ta : Option Nat) (tv : Nat) (pr : Option AzSafeSendError) :
    (s.create caller to_ amount ta tv pr).result ≠ .fatal := by
  unfold AzSafeSend.create finishCreate
  repeat' split
  all_goals simp

theorem update_fee_not_fatal (s : AzSafeSend) (caller : Nat) (f : Nat) :
    (s.update_fee caller f).result ≠ .fatal := by
  unfold AzSafeSend.update_fee
  split <;> simp

/-- The cheque counter never decreases under any invocation. -/
theorem cheques_total_mono (s : AzSafeSend) (l : Label) :
    s.cheques_total ≤ (stepState s l).cheques_total := by
  cases l with
  | createL c t a ta tv pr =>
    rcases create_state_cases s c t a ta tv pr with h | ⟨ch, -, h⟩ <;>
      simp only [stepState, h] <;> omega
  | cancelL c id tr no =>
    rcases cancel_state_cases s c id tr no with h | ⟨ch, -, -, -, h⟩ <;>
      simp only [stepState, h, insertCheque] <;> omega
  | collectL c id tr na nf =>
    rcases collect_state_cases s c id tr na nf with h | ⟨ch, -, -, -, h⟩ <;>
      simp only [stepState, h, insertCheque] <;> omega
  | updateFeeL c f =>
    rcases update_fee_state_cases s c f with h | h <;> simp only [stepState, h] <;> omega

theorem create_token_pending {s : AzSafeSend} {caller to_ amount t tv : Nat}
    (h1 : caller ≠ to_) (h2 : amount ≠ 0) (h3 : s.cheques_total ≠ U32_MAX)
    (h4 : tv = s.fee) :
    s.create caller to_ amount (some t) tv none =
      finishCreate s caller to_ amount (some t) [.psp22TransferFrom t caller amount] := by
  simp only [AzSafeSend.create]
  rw [if_neg h1, if_neg h2, if_neg h3, if_neg (by simp [h4])]

theorem create_native_pending {s : AzSafeSend} {caller to_ amount tv : Nat}
    {pr : Option AzSafeSendError}
    (h1 : caller ≠ to_) (h2 : amount ≠ 0) (h3 : s.cheques_total ≠ U32_MAX)
    (h4 : s.fee + amount < U128_MOD) (h5 : tv = s.fee + amount) :
    s.create caller to_ amount none tv pr = finishCreate s caller to_ amount none [] := by
  simp only [AzSafeSend.create]
  rw [if_neg h1, if_neg h2, if_neg h3, if_neg (by simp [h5]; omega)]

/-- C3 counterexample: a `create` call with a token asset and an attached
value different from the fee (0 against a fee of 500) does not fail
`IncorrectFee` when the caller equals the recipient: the self-transfer
check fires first with `UnprocessableEntity`. -/
theorem C3_counterexample :
    ((AzSafeSend.new 500 0).create 1 1 250 (some 9) 0 none).result =
      .err (.UnprocessableEntity "Sender and receiver must be different.") ∧
    (0 : Nat) ≠ (AzSafeSend.new 500 0).fee := by
  constructor
  · rfl
  · decide

/-- C3 (amended): for every `create` call that passes the preceding
validations (caller distinct from recipient, positive amount, counter not
saturated): with a token asset, any attached value other than the current
fee fails `IncorrectFee` with no transfer attempted; with the native asset,
an attached value other than `fee + amount` fails `IncorrectFee`, an
overflowing `fee + amount` fails `IncorrectFee` deterministically, and no
external transfer call is ever attempted. -/
theorem C3_exact_payment (s : AzSafeSend) (caller to_ amount tv : Nat)
    (h1 : caller ≠ to_) (h2 : amount ≠ 0) (h3 : s.cheques_total ≠ U32_MAX) :
    (∀ t pr, tv ≠ s.fee →
      s.create caller to_ amount (some t) tv pr = ⟨.err .IncorrectFee, s, [], []⟩) ∧
    (∀ pr, tv ≠ s.fee + amount →
      s.create caller to_ amount none tv pr = ⟨.err .IncorrectFee, s, [], []⟩) ∧
    (∀ pr, U128_MOD ≤ s.fee + amount →
      s.create caller to_ amount none tv pr = ⟨.err .IncorrectFee, s, [], []⟩) ∧
    (∀ pr, (s.create caller to_ amount none tv pr).transfers = []) := by
  refine ⟨fun t pr htv => ?_, fun pr htv => ?_, fun pr hov => ?_, fun pr => ?_⟩ <;>
    simp only [AzSafeSend.create] <;>
    rw [if_neg h1, if_neg h2, if_neg h3]
  · rw [if_pos htv]
  · rw [if_pos (Or.inr htv)]
  · rw [if_pos (Or.inl hov)]
  · split
    · rfl
    · rfl

/-- C4: `cancel`/`collect` on an id with no stored cheque fail
`NotFound("Cheque")` regardless of the caller; on a stored cheque, a caller
other than `from` (for `cancel`) or `to` (for `collect`) fails
`Unauthorised` regardless of the cheque's status — so the NotFound check
precedes authorization, which precedes the status check.  Each such
typed-error return leaves the whole storage unchanged, emits no event and
attempts no transfer. -/
theorem C4_not_found_and_unauthorised (s : AzSafeSend) (caller id : Nat)
    (tr : Option AzSafeSendError) (no na nf : Bool) :
    (s.cheques id = none →
      s.cancel caller id tr no = ⟨.err (.NotFound "Cheque"), s, [], []⟩ ∧
      s.collect caller id tr na nf = ⟨.err (.NotFound "Cheque"), s, [], []⟩) ∧
    (∀ c, s.cheques id = some c → caller ≠ c.from_ →
      s.cancel caller id tr no = ⟨.err .Unauthorised, s, [], []⟩) ∧
    (∀ c, s.cheques id = some c → caller ≠ c.to_ →
      s.collect caller id tr na nf = ⟨.err .Unauthorised, s, [], []⟩) := by
  refine ⟨fun h => ⟨?_, ?_⟩, fun c hc hne => ?_, fun c hc hne => ?_⟩
  · simp [AzSafeSend.cancel, h]
  · simp [AzSafeSend.collect, h]
  · simp only [AzSafeSend.cancel, hc]
    rw [if_pos hne]
  · simp only [AzSafeSend.collect, hc]
    rw [if_pos hne]

/-- C5: a successful `create` returns a cheque whose id is the pre-call
counter, whose `from` is the caller, with the requested recipient, amount
and asset, status pending and the current fee; the same cheque is stored
under that id; the counter increases by exactly 1; a `Create` event with
the cheque's public fields is emitted; and no invocation ever decreases the
counter. -/
theorem C5_create_success :
    (∀ (s : AzSafeSend) (caller to_ amount : Nat) (ta : Option Nat) (tv : Nat)
        (pr : Option AzSafeSendError) (c' : Cheque),
      (s.create caller to_ amount ta tv pr).result = .ok c' →
      c' = { id := s.cheques_total, from_ := caller, to_ := to_, amount := amount,
             token_address := ta, status := 0, fee := s.fee } ∧
      (s.create caller to_ amount ta tv pr).state.cheques s.cheques_total = some c' ∧
      (s.create caller to_ amount ta tv pr).state.cheques_total = s.cheques_total + 1 ∧
      (s.create caller to_ amount ta tv pr).events =
        [.Create s.cheques_total caller to_ amount ta s.fee]) ∧
    (∀ (s : AzSafeSend) (l : Label), s.cheques_total ≤ (stepState s l).cheques_total) := by
  constructor
  · intro s caller to_ amount ta tv pr c' h
    obtain ⟨hcq, hst, hev⟩ := create_ok_shape h
    refine ⟨hcq, ?_, ?_, hev⟩
    · rw [hst]
      simp [insertCheque]
    · rw [hst]
  · exact cheques_total_mono

/-- C6: `create` validates in order — self-transfer fails
`UnprocessableEntity` regardless of everything else; then a zero amount
fails `UnprocessableEntity`; then a saturated counter fails
`RecordsLimitReached` regardless of otherwise-valid inputs; with the
counter at `u32::MAX - 1` an otherwise-valid create (token or native)
succeeds with id `u32::MAX - 1` leaving the counter at `u32::MAX`, after
which no create can ever succeed.  Every failure leaves the state
unchanged. -/
theorem C6_create_validation_order (s : AzSafeSend) (caller to_ amount : Nat)
    (ta : Option Nat) (tv : Nat) (pr : Option AzSafeSendError) :
    (caller = to_ → s.create caller to_ amount ta tv pr =
      ⟨.err (.UnprocessableEntity "Sender and receiver must be different."), s, [], []⟩) ∧
    (caller ≠ to_ → amount = 0 → s.create caller to_ amount ta tv pr =
      ⟨.err (.UnprocessableEntity "Amount must be greater than zero."), s, [], []⟩) ∧
    (caller ≠ to_ → amount ≠ 0 → s.cheques_total = U32_MAX →
      s.create caller to_ amount ta tv pr = ⟨.err (.RecordsLimitReached "Cheque"), s, [], []⟩) ∧
    (s.cheques_total = U32_MAX - 1 → caller ≠ to_ → amount ≠ 0 → ∀ t, tv = s.fee →
      ∃ c', (s.create caller to_ amount (some t) tv none).result = .ok c' ∧
        c'.id = U32_MAX - 1 ∧
        (s.create caller to_ amount (some t) tv none).state.cheques_total = U32_MAX) ∧
    (s.cheques_total = U32_MAX - 1 → caller ≠ to_ → amount ≠ 0 →
      s.fee + amount < U128_MOD → tv = s.fee + amount →
      ∃ c', (s.create caller to_ amount none tv pr).result = .ok c' ∧
        c'.id = U32_MAX - 1 ∧
        (s.create caller to_ amount none tv pr).state.cheques_total = U32_MAX) ∧
    (s.cheques_total = U32_MAX → ∀ c', (s.create caller to_ amount ta tv pr).result ≠ .ok c') := by
  have hmax : U32_MAX - 1 ≠ U32_MAX := by decide
  refine ⟨fun h => ?_, fun h1 h2 => ?_, fun h1 h2 h3 => ?_,
    fun h0 h1 h2 t h4 => ?_, fun h0 h1 h2 h4 h5 => ?_, fun h3 c' => ?_⟩
  · unfold AzSafeSend.create
    rw [if_pos h]
  · unfold AzSafeSend.create
    rw [if_neg h1, if_pos h2]
  · unfold AzSafeSend.create
    rw [if_neg h1, if_neg h2, if_pos h3]
  · rw [create_token_pending h1 h2 (h0 ▸ hmax) h4]
    exact ⟨_, rfl, h0, by simp only [finishCreate]; rw [h0]; decide⟩
  · rw [create_native_pending h1 h2 (h0 ▸ hmax) h4 h5]
    exact ⟨_, rfl, h0, by simp only [finishCreate]; rw [h0]; decide⟩
  · intro h
    obtain ⟨-, -, -⟩ := create_ok_shape h
    revert h
    unfold AzSafeSend.create finishCreate
    repeat' split
    all_goals simp_all

/-- C1 counterexample: after creating a native cheque (id 0) and having it
collected, that cheque is in status Collected (1); a `cancel` of id 0 by
account 3, which is not the cheque's `from`, then fails `Unauthorised` —
not `UnprocessableEntity` as the claim asserts for any cancel on a
non-pending cheque. -/
theorem C1_counterexample :
    ((((AzSafeSend.new 500 0).create 1 2 250 none 750 none).state.collect
        2 0 none true true).state.cheques 0 =
      some { id := 0, from_ := 1, to_ := 2, amount := 250, token_address := none,
             status := 1, fee := 500 }) ∧
    (((((AzSafeSend.new 500 0).create 1 2 250 none 750 none).state.collect
        2 0 none true true).state.cancel 3 0 none true).result = .err .Unauthorised) := by
  constructor
  · rfl
  · rfl

/-- C1 (amended): in every reachable state, along any further invocation a
stored cheque is either unchanged or moves from Pending (status 0) to
Collected (1) or Cancelled (2); status 1 only arises from a successful
collect by the cheque's `to`, status 2 only from a successful cancel by its
`from`; and a cancel by `from` (resp. collect by `to`) of a non-pending
cheque fails `UnprocessableEntity` leaving the entire state unchanged (an
unauthorized caller instead fails `Unauthorised` before the status is
inspected) — so Collected and Cancelled are terminal and no cheque is
resolved twice or in both ways. -/
theorem C1_status_machine (s : AzSafeSend) (hs : Reachable s) :
    (∀ (l : Label) (id : Nat) (c c' : Cheque),
      s.cheques id = some c → (stepState s l).cheques id = some c' →
      c' = c ∨ (c.status = 0 ∧ (c'.status = 1 ∨ c'.status = 2))) ∧
    (∀ (caller id : Nat) (tr : Option AzSafeSendError) (na nf : Bool) (c' : Cheque),
      (s.collect caller id tr na nf).result = .ok c' →
      ∃ c, s.cheques id = some c ∧ caller = c.to_ ∧ c.status = 0 ∧ c'.status = 1) ∧
    (∀ (caller id : Nat) (tr : Option AzSafeSendError) (no : Bool) (c' : Cheque),
      (s.cancel caller id tr no).result = .ok c' →
      ∃ c, s.cheques id = some c ∧ caller = c.from_ ∧ c.status = 0 ∧ c'.status = 2) ∧
    (∀ (caller id : Nat) (c : Cheque) (tr : Option AzSafeSendError) (no : Bool),
      s.cheques id = some c → caller = c.from_ → c.status ≠ 0 →
      s.cancel caller id tr no =
        ⟨.err (.UnprocessableEntity "Status must be pending collection."), s, [], []⟩) ∧
    (∀ (caller id : Nat) (c : Cheque) (tr : Option AzSafeSendError) (na nf : Bool),
      s.cheques id = some c → caller = c.to_ → c.status ≠ 0 →
      s.collect caller id tr na nf =
        ⟨.err (.UnprocessableEntity "Status must be pending collection."), s, [], []⟩) := by
  have good := reachable_good hs
  refine ⟨?_, ?_, ?_, ?_, ?_⟩
  · intro l id c c' hc hc'
    have hidlt : id < s.cheques_total := (good.2 id).mp (by simp [hc])
    cases l with
    | createL caller toa am ta tv pr =>
      rcases create_state_cases s caller toa am ta tv pr with h | ⟨ch, hchid, h⟩ <;>
        simp only [stepState, h, insertCheque] at hc'
      · rw [hc] at hc'
        injection hc' with h2
        exact Or.inl h2.symm
      · have hid : id ≠ s.cheques_total := by omega
        rw [if_neg hid, hc] at hc'
        injection hc' with h2
        exact Or.inl h2.symm
    | cancelL caller idc trx nox =>
      rcases cancel_state_cases s caller idc trx nox with h | ⟨ch, hch, hclr, hst0, h⟩ <;>
        simp only [stepState, h, insertCheque] at hc'
      · rw [hc] at hc'
        injection hc' with h2
        exact Or.inl h2.symm
      · by_cases hid : id = ch.id
        · rw [if_pos hid] at hc'
          injection hc' with h2
          have hidc : ch.id = idc := good.1 idc ch hch
          have hcc : s.cheques id = some ch := by rw [hid, hidc]; exact hch
          rw [hc] at hcc
          injection hcc with h3
          refine Or.inr ⟨by rw [h3]; exact hst0, Or.inr (by rw [← h2])⟩
        · rw [if_neg hid, hc] at hc'
          injection hc' with h2
          exact Or.inl h2.symm
    | collectL caller idc trx nax nfx =>
      rcases collect_state_cases s caller idc trx nax nfx with h | ⟨ch, hch, hclr, hst0, h⟩ <;>
        simp only [stepState, h, insertCheque] at hc'
      · rw [hc] at hc'
        injection hc' with h2
        exact Or.inl h2.symm
      · by_cases hid : id = ch.id
        · rw [if_pos hid] at hc'
          injection hc' with h2
          have hidc : ch.id = idc := good.1 idc ch hch
          have hcc : s.cheques id = some ch := by rw [hid, hidc]; exact hch
          rw [hc] at hcc
          injection hcc with h3
          refine Or.inr ⟨by rw [h3]; exact hst0, Or.inl (by rw [← h2])⟩
        · rw [if_neg hid, hc] at hc'
          injection hc' with h2
          exact Or.inl h2.symm
    | updateFeeL caller f =>
      rcases update_fee_state_cases s caller f with h | h <;>
        simp only [stepState, h] at hc'
      all_goals
        rw [hc] at hc'
        injection hc' with h2
        exact Or.inl h2.symm
  · intro caller id tr na nf c' h
    obtain ⟨c, hc, hclr, hst0, heq⟩ := collect_ok_shape h
    rw [heq] at h
    simp only [finishCollect, ExecResult.ok.injEq] at h
    exact ⟨c, hc, hclr, hst0, by rw [← h]⟩
  · intro caller id tr no c' h
    obtain ⟨c, hc, hclr, hst0, heq⟩ := cancel_ok_shape h
    rw [heq] at h
    simp only [finishCancel, ExecResult.ok.injEq] at h
    exact ⟨c, hc, hclr, hst0, by rw [← h]⟩
  · intro caller id c tr no hc hclr hst
    simp only [AzSafeSend.cancel, hc]
    rw [if_neg (by simp [hclr]), if_pos hst]
  · intro caller id c tr na nf hc hclr hst
    simp only [AzSafeSend.collect, hc]
    rw [if_neg (by simp [hclr]), if_pos hst]

/-- Effects of a successful `cancel`, given the stored cheque. -/
theorem cancel_ok_effects {s : AzSafeSend} {caller id : Nat}
    {tr : Option AzSafeSendError} {no : Bool} {c c' : Cheque}
    (hc : s.cheques id = some c)
    (h : (s.cancel caller id tr no).result = .ok c') :
    c' = { c with status := 2 } ∧
    (s.cancel caller id tr no).state = insertCheque s c.id { c with status := 2 } ∧
    (s.cancel caller id tr no).events = [.Cancel c.id] ∧
    (s.cancel caller id tr no).transfers =
      (match c.token_address with
       | some t => [.psp22Transfer t caller c.amount]
       | none => []) ++
      (if 0 < (match c.token_address with | some _ => 0 | none => c.amount) + c.fee then
         [.nativeTransfer caller
           ((match c.token_address with | some _ => 0 | none => c.amount) + c.fee)]
       else []) := by
  obtain ⟨c0, hc0, -, -, heq⟩ := cancel_ok_shape h
  rw [hc] at hc0
  injection hc0 with hcc
  subst hcc
  rw [heq] at h
  simp only [finishCancel, ExecResult.ok.injEq] at h
  exact ⟨h.symm, by rw [heq]; rfl, by rw [heq]; rfl, by rw [heq]; rfl⟩

/-- Effects of a successful `collect`, given the stored cheque. -/
theorem collect_ok_effects {s : AzSafeSend} {caller id : Nat}
    {tr : Option AzSafeSendError} {na nf : Bool} {c c' : Cheque}
    (hc : s.cheques id = some c)
    (h : (s.collect caller id tr na nf).result = .ok c') :
    c' = { c with status := 1 } ∧
    (s.collect caller id tr na nf).state = insertCheque s c.id { c with status := 1 } ∧
    (s.collect caller id tr na nf).events = [.Collect c.id] ∧
    (s.collect caller id tr na nf).transfers =
      (match c.token_address with
       | some t => [.psp22Transfer t caller c.amount]
       | none => [.nativeTransfer caller c.amount]) ++
      (if 0 < c.fee then [.nativeTransfer s.admin c.fee] else []) := by
  obtain ⟨c0, hc0, -, -, heq⟩ := collect_ok_shape h
  rw [hc] at hc0
  injection hc0 with hcc
  subst hcc
  rw [heq] at h
  simp only [finishCollect, ExecResult.ok.injEq] at h
  exact ⟨h.symm, by rw [heq]; rfl, by rw [heq]; rfl, by rw [heq]; rfl⟩

/-- C2: a successful `cancel` of a pending cheque returns the token amount
to the caller for a token cheque, accumulates the amount for a native
cheque, always adds the fee to the native refund, makes exactly one native
transfer of the total to the caller iff the total is positive, sets the
status to Cancelled and emits a `Cancel` event; a successful `collect`
transfers the amount to the caller (token via PSP22, native via the
ledger), transfers the fee natively to the admin iff it is positive, sets
the status to Collected and emits a `Collect` event. -/
theorem C2_resolution_effects :
    (∀ (s : AzSafeSend) (caller id : Nat) (tr : Option AzSafeSendError) (no : Bool)
        (c c' : Cheque),
      s.cheques id = some c →
      (s.cancel caller id tr no).result = .ok c' →
      c' = { c with status := 2 } ∧
      (s.cancel caller id tr no).state = insertCheque s c.id { c with status := 2 } ∧
      (s.cancel caller id tr no).events = [.Cancel c.id] ∧
      (s.cancel caller id tr no).transfers =
        (match c.token_address with
         | some t => [.psp22Transfer t caller c.amount]
         | none => []) ++
        (if 0 < (match c.token_address with | some _ => 0 | none => c.amount) + c.fee then
           [.nativeTransfer caller
             ((match c.token_address with | some _ => 0 | none => c.amount) + c.fee)]
         else [])) ∧
    (∀ (s : AzSafeSend) (caller id : Nat) (tr : Option AzSafeSendError) (na nf : Bool)
        (c c' : Cheque),
      s.cheques id = some c →
      (s.collect caller id tr na nf).result = .ok c' →
      c' = { c with status := 1 } ∧
      (s.collect caller id tr na nf).state = insertCheque s c.id { c with status := 1 } ∧
      (s.collect caller id tr na nf).events = [.Collect c.id] ∧
      (s.collect caller id tr na nf).transfers =
        (match c.token_address with
         | some t => [.psp22Transfer t caller c.amount]
         | none => [.nativeTransfer caller c.amount]) ++
        (if 0 < c.fee then [.nativeTransfer s.admin c.fee] else [])) := by
  constructor
  · intro s caller id tr no c c' hc h
    exact cancel_ok_effects hc h
  · intro s caller id tr na nf c c' hc h
    exact collect_ok_effects hc h

/-- C7: `cancel`/`collect` halt fatally (the source's `panic!`) exactly
when a native-currency payout fails — the refund to the canceller, the
amount to the collector, or the positive fee to the admin — and such a
failure never yields a typed error result; `create` and `update_fee` can
never halt fatally, so every other failure is a typed `AzSafeSendError`. -/
theorem C7_fatal_only_native_payout :
    (∀ (s : AzSafeSend) (caller id : Nat) (tr : Option AzSafeSendError) (no : Bool),
      (s.cancel caller id tr no).result = .fatal ↔
        ∃ c, s.cheques id = some c ∧ caller = c.from_ ∧ c.status = 0 ∧ no = false ∧
          ((∃ t, c.token_address = some t ∧ tr = none ∧ 0 < c.fee) ∨
           (c.token_address = none ∧ 0 < c.amount + c.fee))) ∧
    (∀ (s : AzSafeSend) (caller id : Nat) (tr : Option AzSafeSendError) (na nf : Bool),
      (s.collect caller id tr na nf).result = .fatal ↔
        ∃ c, s.cheques id = some c ∧ caller = c.to_ ∧ c.status = 0 ∧
          ((c.token_address = none ∧ na = false) ∨
           (((∃ t, c.token_address = some t ∧ tr = none) ∨
             (c.token_address = none ∧ na = true)) ∧
            0 < c.fee ∧ nf = false))) ∧
    (∀ (s : AzSafeSend) (caller to_ amount : Nat) (ta : Option Nat) (tv : Nat)
        (pr : Option AzSafeSendError),
      (s.create caller to_ amount ta tv pr).result ≠ .fatal) ∧
    (∀ (s : AzSafeSend) (caller f : Nat), (s.update_fee caller f).result ≠ .fatal) :=
  ⟨cancel_fatal_iff, collect_fatal_iff, create_not_fatal, update_fee_not_fatal⟩

/-- C8: `update_fee` by a non-admin fails `Unauthorised` leaving the entire
state unchanged; by the admin it sets the stored fee, visible in a
subsequent `config`, and changes nothing else — in particular every stored
cheque is untouched, so after a successful `create` a later `update_fee`
leaves `show` returning the pending cheque with the fee in effect at its
creation. -/
theorem C8_update_fee (s : AzSafeSend) (caller f : Nat) :
    (caller ≠ s.admin → s.update_fee caller f = ⟨.err .Unauthorised, s, [], []⟩) ∧
    (caller = s.admin →
      s.update_fee caller f = ⟨.ok (), { s with fee := f }, [.UpdateFee f], []⟩ ∧
      (s.update_fee caller f).state.config =
        { admin := s.admin, fee := f, cheques_total := s.cheques_total } ∧
      (∀ id, (s.update_fee caller f).state.cheques id = s.cheques id)) ∧
    (∀ (caller2 to_ amount : Nat) (ta : Option Nat) (tv : Nat)
        (pr : Option AzSafeSendError) (c' : Cheque),
      (s.create caller2 to_ amount ta tv pr).result = .ok c' →
      ((s.create caller2 to_ amount ta tv pr).state.update_fee caller f).state.show_ c'.id =
        .ok c' ∧ c'.fee = s.fee ∧ c'.status = 0) := by
  refine ⟨fun h => ?_, fun h => ?_, fun caller2 to_ amount ta tv pr c' h => ?_⟩
  · unfold AzSafeSend.update_fee
    rw [if_pos h]
  · have he : s.update_fee caller f = ⟨.ok (), { s with fee := f }, [.UpdateFee f], []⟩ := by
      unfold AzSafeSend.update_fee
      rw [if_neg (by simp [h])]
    exact ⟨he, by rw [he]; rfl, fun id => by rw [he]⟩
  · obtain ⟨hcq, hst, -⟩ := create_ok_shape h
    have hid : c'.id = s.cheques_total := by rw [hcq]
    have hcget : (s.create caller2 to_ amount ta tv pr).state.cheques c'.id = some c' := by
      rw [hst, hid]
      simp [insertCheque]
    rcases update_fee_state_cases (s.create caller2 to_ amount ta tv pr).state caller f
      with h2 | h2 <;>
      refine ⟨?_, by rw [hcq], by rw [hcq]⟩ <;> rw [h2] <;> unfold AzSafeSend.show_
    · rw [hcget]
    · have hcget2 :
          ({ (s.create caller2 to_ amount ta tv pr).state with fee := f } : AzSafeSend).cheques
            c'.id = some c' := hcget
      rw [hcget2]

/-- C9: in every reachable state the cheque mapping has an entry exactly
for the ids strictly below the counter; `show` succeeds on every id below
the counter and fails `NotFound("Cheque")` on every id at or above it; and
no invocation ever removes a stored cheque. -/
theorem C9_domain (s : AzSafeSend) (hs : Reachable s) (id : Nat) :
    ((∃ c, s.cheques id = some c) ↔ id < s.cheques_total) ∧
    (id < s.cheques_total → ∃ c, s.show_ id = .ok c) ∧
    (s.cheques_total ≤ id → s.show_ id = .error (.NotFound "Cheque")) ∧
    (∀ (l : Label) (c : Cheque), s.cheques id = some c →
      ∃ c', (stepState s l).cheques id = some c') := by
  have hdom := (reachable_good hs).2 id
  refine ⟨?_, fun h => ?_, fun h => ?_, fun l c hc => ?_⟩
  · rw [← hdom]
    exact Option.isSome_iff_exists.symm
  · obtain ⟨c, hc⟩ := Option.isSome_iff_exists.mp (hdom.mpr h)
    exact ⟨c, by unfold AzSafeSend.show_; rw [hc]⟩
  · have hnone : s.cheques id = none := by
      cases hoc : s.cheques id with
      | none => rfl
      | some c =>
        have := hdom.mp (by simp [hoc])
        omega
    unfold AzSafeSend.show_
    rw [hnone]
  · cases l with
    | createL caller toa am ta tv pr =>
      rcases create_state_cases s caller toa am ta tv pr with h | ⟨ch, hchid, h⟩ <;>
        simp only [stepState, h, insertCheque]
      · exact ⟨c, hc⟩
      · by_cases hid : id = s.cheques_total
        · rw [if_pos hid]; exact ⟨ch, rfl⟩
        · rw [if_neg hid]; exact ⟨c, hc⟩
    | cancelL caller idc trx nox =>
      rcases cancel_state_cases s caller idc trx nox with h | ⟨ch, hch, -, -, h⟩ <;>
        simp only [stepState, h, insertCheque]
      · exact ⟨c, hc⟩
      · by_cases hid : id = ch.id
        · rw [if_pos hid]; exact ⟨_, rfl⟩
        · rw [if_neg hid]; exact ⟨c, hc⟩
    | collectL caller idc trx nax nfx =>
      rcases collect_state_cases s caller idc trx nax nfx with h | ⟨ch, hch, -, -, h⟩ <;>
        simp only [stepState, h, insertCheque]
      · exact ⟨c, hc⟩
      · by_cases hid : id = ch.id
        · rw [if_pos hid]; exact ⟨_, rfl⟩
        · rw [if_neg hid]; exact ⟨c, hc⟩
    | updateFeeL caller f =>
      rcases update_fee_state_cases s caller f with h | h <;>
        simp only [stepState, h] <;> exact ⟨c, hc⟩

/-- C10: in a reachable state, a successful `cancel` (resp. `collect`) of
id changes only the status field of the cheque stored at that id — every
other field, every other stored cheque, and the contract's admin, fee and
counter are unchanged — and the returned cheque equals the updated stored
record. -/
theorem C10_resolution_frame (s : AzSafeSend) (hs : Reachable s) :
    (∀ (caller id : Nat) (tr : Option AzSafeSendError) (no : Bool) (c c' : Cheque),
      s.cheques id = some c → (s.cancel caller id tr no).result = .ok c' →
      c' = { c with status := 2 } ∧
      (s.cancel caller id tr no).state.cheques id = some c' ∧
      (∀ j, j ≠ id → (s.cancel caller id tr no).state.cheques j = s.cheques j) ∧
      (s.cancel caller id tr no).state.admin = s.admin ∧
      (s.cancel caller id tr no).state.fee = s.fee ∧
      (s.cancel caller id tr no).state.cheques_total = s.cheques_total) ∧
    (∀ (caller id : Nat) (tr : Option AzSafeSendError) (na nf : Bool) (c c' : Cheque),
      s.cheques id = some c → (s.collect caller id tr na nf).result = .ok c' →
      c' = { c with status := 1 } ∧
      (s.collect caller id tr na nf).state.cheques id = some c' ∧
      (∀ j, j ≠ id → (s.collect caller id tr na nf).state.cheques j = s.cheques j) ∧
      (s.collect caller id tr na nf).state.admin = s.admin ∧
      (s.collect caller id tr na nf).state.fee = s.fee ∧
      (s.collect caller id tr na nf).state.cheques_total = s.cheques_total) := by
  have good := reachable_good hs
  constructor
  · intro caller id tr no c c' hc h
    have hcid : c.id = id := good.1 id c hc
    obtain ⟨hcq, hstate, -, -⟩ := cancel_ok_effects hc h
    refine ⟨hcq, ?_, fun j hj => ?_, by rw [hstate]; rfl, by rw [hstate]; rfl,
      by rw [hstate]; rfl⟩
    · rw [hstate, hcq]
      simp [insertCheque, hcid]
    · rw [hstate]
      simp only [insertCheque]
      rw [if_neg (by rw [hcid]; exact hj)]
  · intro caller id tr na nf c c' hc h
    have hcid : c.id = id := good.1 id c hc
    obtain ⟨hcq, hstate, -, -⟩ := collect_ok_effects hc h
    refine ⟨hcq, ?_, fun j hj => ?_, by rw [hstate]; rfl, by rw [hstate]; rfl,
      by rw [hstate]; rfl⟩
    · rw [hstate, hcq]
      simp [insertCheque, hcid]
    · rw [hstate]
      simp only [insertCheque]
      rw [if_neg (by rw [hcid]; exact hj)]

/-- Witness for C1 at a concrete reachable state: cancelling an already
collected cheque by its own `from` fails `UnprocessableEntity` and changes
nothing. -/
theorem C1_witness :
    (((AzSafeSend.new 500 0).create 1 2 250 none 750 none).state.collect
        2 0 none true true).state.cancel 1 0 none true =
      ⟨.err (.UnprocessableEntity "Status must be pending collection."),
       (((AzSafeSend.new 500 0).create 1 2 250 none 750 none).state.collect
          2 0 none true true).state, [], []⟩ := by
  have hr : Reachable (((AzSafeSend.new 500 0).create 1 2 250 none 750 none).state.collect
      2 0 none true true).state :=
    Reachable.step (Label.collectL 2 0 none true true)
      (Reachable.step (Label.createL 1 2 250 none 750 none) (Reachable.init 500 0))
  exact (C1_status_machine _ hr).2.2.2.1 1 0
    { id := 0, from_ := 1, to_ := 2, amount := 250, token_address := none,
      status := 1, fee := 500 } none true rfl rfl (by decide)

/-- Witness for C2: cancelling the pending native cheque of the example
state makes exactly one native transfer of `amount + fee = 750` to the
caller and emits the `Cancel` event. -/
theorem C2_witness :
    (((AzSafeSend.new 500 0).create 1 2 250 none 750 none).state.cancel
        1 0 none true).transfers = [.nativeTransfer 1 750] ∧
    (((AzSafeSend.new 500 0).create 1 2 250 none 750 none).state.cancel
        1 0 none true).events = [.Cancel 0] := by
  have h := C2_resolution_effects.1
    ((AzSafeSend.new 500 0).create 1 2 250 none 750 none).state 1 0 none true
    { id := 0, from_ := 1, to_ := 2, amount := 250, token_address := none,
      status := 0, fee := 500 }
    { id := 0, from_ := 1, to_ := 2, amount := 250, token_address := none,
      status := 2, fee := 500 }
    rfl rfl
  exact ⟨h.2.2.2, h.2.2.1⟩

/-- Witness for C3: a token create with attached value 0 against fee 500
fails `IncorrectFee` with nothing attempted. -/
theorem C3_witness :
    (AzSafeSend.new 500 0).create 1 2 250 (some 9) 0 none =
      ⟨.err .IncorrectFee, AzSafeSend.new 500 0, [], []⟩ :=
  (C3_exact_payment (AzSafeSend.new 500 0) 1 2 250 0 (by decide) (by decide)
    (by decide)).1 9 none (by decide)

/-- Witness for C4: cancel of an unknown id fails `NotFound`; cancel by a
non-`from` caller fails `Unauthorised`. -/
theorem C4_witness :
    (AzSafeSend.new 500 0).cancel 1 0 none true =
      ⟨.err (.NotFound "Cheque"), AzSafeSend.new 500 0, [], []⟩ ∧
    ((AzSafeSend.new 500 0).create 1 2 250 none 750 none).state.cancel 2 0 none true =
      ⟨.err .Unauthorised,
       ((AzSafeSend.new 500 0).create 1 2 250 none 750 none).state, [], []⟩ := by
  refine ⟨((C4_not_found_and_unauthorised (AzSafeSend.new 500 0) 1 0 none true true
    true).1 rfl).1, ?_⟩
  exact (C4_not_found_and_unauthorised
    ((AzSafeSend.new 500 0).create 1 2 250 none 750 none).state 2 0 none true true true).2.1
    { id := 0, from_ := 1, to_ := 2, amount := 250, token_address := none,
      status := 0, fee := 500 }
    rfl (by decide)

/-- Witness for C5: the example create stores cheque 0 and bumps the
counter to 1, emitting the `Create` event. -/
theorem C5_witness :
    ((AzSafeSend.new 500 0).create 1 2 250 none 750 none).state.cheques_total = 1 ∧
    ((AzSafeSend.new 500 0).create 1 2 250 none 750 none).state.cheques 0 =
      some { id := 0, from_ := 1, to_ := 2, amount := 250, token_address := none,
             status := 0, fee := 500 } ∧
    ((AzSafeSend.new 500 0).create 1 2 250 none 750 none).events =
      [.Create 0 1 2 250 none 500] := by
  have h := C5_create_success.1 (AzSafeSend.new 500 0) 1 2 250 none 750 none
    { id := 0, from_ := 1, to_ := 2, amount := 250, token_address := none,
      status := 0, fee := 500 }
    rfl
  exact ⟨h.2.2.1, h.2.1, h.2.2.2⟩

/-- Witness for C6: with the counter at `u32::MAX - 1` an otherwise-valid
native create succeeds with id `u32::MAX - 1` and saturates the counter. -/
theorem C6_witness :
    ∃ c', ((⟨500, 0, fun _ => none, U32_MAX - 1⟩ : AzSafeSend).create
        1 2 250 none 750 none).result = .ok c' ∧
      c'.id = U32_MAX - 1 ∧
      ((⟨500, 0, fun _ => none, U32_MAX - 1⟩ : AzSafeSend).create
        1 2 250 none 750 none).state.cheques_total = U32_MAX :=
  (C6_create_validation_order (⟨500, 0, fun _ => none, U32_MAX - 1⟩ : AzSafeSend)
    1 2 250 none 750 none).2.2.2.2.1 rfl (by decide) (by decide) (by decide) rfl

/-- Witness for C7: a failing native refund during cancel of the pending
native example cheque is fatal. -/
theorem C7_witness :
    (((AzSafeSend.new 500 0).create 1 2 250 none 750 none).state.cancel
        1 0 none false).result = .fatal :=
  (C7_fatal_only_native_payout.1
    ((AzSafeSend.new 500 0).create 1 2 250 none 750 none).state 1 0 none false).mpr
    ⟨{ id := 0, from_ := 1, to_ := 2, amount := 250, token_address := none,
       status := 0, fee := 500 },
     rfl, rfl, rfl, rfl, Or.inr ⟨rfl, by decide⟩⟩

/-- Witness for C8: update_fee by a non-admin fails leaving everything
unchanged; by the admin it replaces the fee. -/
theorem C8_witness :
    (AzSafeSend.new 500 0).update_fee 1 9 =
      ⟨.err .Unauthorised, AzSafeSend.new 500 0, [], []⟩ ∧
    (AzSafeSend.new 500 0).update_fee 0 9 =
      ⟨.ok (), { AzSafeSend.new 500 0 with fee := 9 }, [.UpdateFee 9], []⟩ := by
  refine ⟨(C8_update_fee (AzSafeSend.new 500 0) 1 9).1 (by decide), ?_⟩
  exact ((C8_update_fee (AzSafeSend.new 500 0) 0 9).2.1 rfl).1

/-- Witness for C9: after the example create, `show` succeeds on id 0 and
fails `NotFound` on id 5. -/
theorem C9_witness :
    ((AzSafeSend.new 500 0).create 1 2 250 none 750 none).state.show_ 5 =
      .error (.NotFound "Cheque") ∧
    ∃ c, ((AzSafeSend.new 500 0).create 1 2 250 none 750 none).state.show_ 0 = .ok c := by
  have hr : Reachable ((AzSafeSend.new 500 0).create 1 2 250 none 750 none).state :=
    Reachable.step (Label.createL 1 2 250 none 750 none) (Reachable.init 500 0)
  exact ⟨(C9_domain _ hr 5).2.2.1 (by decide), (C9_domain _ hr 0).2.1 (by decide)⟩

/-- Witness for C10: collecting the example cheque flips only its status
and leaves the counter unchanged. -/
theorem C10_witness :
    (((AzSafeSend.new 500 0).create 1 2 250 none 750 none).state.collect
        2 0 none true true).state.cheques 0 =
      some { id := 0, from_ := 1, to_ := 2, amount := 250, token_address := none,
             status := 1, fee := 500 } ∧
    (((AzSafeSend.new 500 0).create 1 2 250 none 750 none).state.collect
        2 0 none true true).state.cheques_total =
      ((AzSafeSend.new 500 0).create 1 2 250 none 750 none).state.cheques_total := by
  have hr : Reachable ((AzSafeSend.new 500 0).create 1 2 250 none 750 none).state :=
    Reachable.step (Label.createL 1 2 250 none 750 none) (Reachable.init 500 0)
  have h := (C10_resolution_frame _ hr).2 2 0 none true true
    { id := 0, from_ := 1, to_ := 2, amount := 250, token_address := none,
      status := 0, fee := 500 }
    { id := 0, from_ := 1, to_ := 2, amount := 250, token_address := none,
      status := 1, fee := 500 }
    rfl rfl
  exact ⟨h.2.1, h.2.2.2.2.2⟩

end AzSafeSendSpec
